import Mathlib

/-!
Verification development for the NQTL document assembly engine (`app.py`).

The embedding models the two core functions of the source, `extract_all_data`
and `inject_data_into_word`, together with the main flow that connects them.
Spreadsheet sheets are modelled as rectangular grids of cell text (pandas
coerces every cell to its string form, with absent cells reading as "nan");
Python dicts are modelled as insertion-ordered association lists, matching
CPython semantics (assignment to an existing key keeps its position, a new
key is appended; iteration follows insertion order).

One deliberate totalization: `Sheet.cell` returns the pandas absent-marker
"nan" for an out-of-range read.  All window reads in the source are bounds
guarded; the only unguarded read is the anchor scan at column 1 (line 56 of
the source), which can raise in Python only for a sheet with fewer than two
columns.  Every concrete input used below has at least two columns.
-/

namespace NQTL

/-- Python whitespace for `str.strip()`: space, tab, newline, CR, VT, FF. -/
def isPySpace (c : Char) : Bool :=
  c = ' ' || c = '\t' || c = '\n' || c = '\r' || c = '\x0b' || c = '\x0c'

/-- Python `str.lower()` (ASCII case mapping, as used by the source). -/
def pyLower (s : String) : String :=
  String.mk (s.toList.map Char.toLower)

/-- Python `str.strip()`: drop leading and trailing whitespace. -/
def pyStrip (s : String) : String :=
  String.mk (((s.toList.dropWhile isPySpace).reverse.dropWhile isPySpace).reverse)

/-- Python `str.replace("\n", " ")` for the single-character pattern. -/
def replaceNewlines (s : String) : String :=
  String.mk (s.toList.map (fun c => if c = '\n' then ' ' else c))

/-- Substring test on character lists: `n` occurs contiguously inside `h`. -/
def listInfix (n h : List Char) : Bool :=
  match h with
  | [] => n.isEmpty
  | _ :: t => n.isPrefixOf h || listInfix n t

/-- Python `needle in hay` for strings (contiguous substring). -/
def strContains (hay needle : String) : Bool :=
  listInfix needle.toList hay.toList

/-- The matching test shared by both scans in the source:
`metric.lower() in text.lower()` (line 59 and line 103). -/
def fragMatch (metric text : String) : Bool :=
  strContains (pyLower text) (pyLower metric)

/-- The master metric list (lines 9-38 of the source). -/
def TARGET_METRICS : List String := [
  "Number (#) of Total Claims Incurred During the Plan Year",
  "Percentage (%) of Claims Denied Based on Lack of Medical Necessity",
  "Percentage (%) of Claims Denied Based on Lack of Medical Necessity Overturned on Appeal",
  "Number (#) of Claims Submitted for Prior Authorization",
  "Percentage (%) of Prior Authorization Claims Denied Due to Non-Administrative Reasons",
  "Percentage (%) of Prior Authorization Claims Denied Due to Non-Administrative Reasons Overturned on Appeal",
  "Average Processing Time (in Days) for Prior Authorization Requests",
  "Average Processing Time (in Days) for Prior Authorization Appeals",
  "Number (#) of Claims Submitted for Concurrent Review",
  "Percentage (%) of Concurrent Review Claims Denied Due to Non-Administrative Reasons",
  "Percentage (%) of Concurrent Review Claims Denied Due to Non-Administrative Reasons Overturned on Appeal",
  "Average Processing Time (in Days) for Concurrent Review Requests",
  "Average Processing Time (in Days) for Concurrent Review Appeals",
  "Number (#) of Claims Submitted for Retrospective Review",
  "Percentage (%) of Retrospective Review Claims Denied Due to Non-Administrative Reasons",
  "Percentage (%) of Retrospective Review Claims Denied Due to Non-Administrative Reasons Overturned on Appeal",
  "Average Processing Time (in Days) for Retrospective Review Requests",
  "Average Processing Time (in Days) for Retrospective Review Appeals",
  "Percentage (%) of Claims Denied as Experimental/Investigational",
  "Average Processing Time (in Days) for Experimental/Investigational Requests",
  "Percentage (%) of Experimental/Investigational Claims Appealed",
  "Percentage (%) of Experimental/Investigational Denials Overturned on Appeal",
  "Average Processing Time (in Days) for Experimental/Investigational Appeals"]

/-- A ValueTuple: the list of value-cell texts captured for one label row. -/
abbrev ValueTuple := List String

/-- Inner dict of `extracted_data[metric]`: label text to ValueTuple,
insertion ordered. -/
abbrev LabelMap := List (String × ValueTuple)

/-- `extracted_data`: metric to LabelMap, insertion ordered. -/
abbrev ExtractionResult := List (String × LabelMap)

/-- Association lookup (Python dict `d[k]` / `k in d`), first match. -/
def alookup {α : Type} (m : List (String × α)) (k : String) : Option α :=
  match m with
  | [] => none
  | (k', v) :: rest => if k' = k then some v else alookup rest k

/-- Python dict assignment `d[k] = v`: update in place if present (keeping
insertion position), else append at the end. -/
def setKey {α : Type} (m : List (String × α)) (k : String) (v : α) : List (String × α) :=
  match m with
  | [] => [(k, v)]
  | (k', v') :: rest => if k' = k then (k, v) :: rest else (k', v') :: setKey rest k v

/-- `if metric not in extracted_data: extracted_data[metric] = {}` (line 60). -/
def ensureKey (d : ExtractionResult) (m : String) : ExtractionResult :=
  if (alookup d m).isSome then d else d ++ [(m, [])]

/-- `extracted_data[metric][row_label] = vals` (line 81). -/
def store (d : ExtractionResult) (m l : String) (v : ValueTuple) : ExtractionResult :=
  setKey d m (setKey ((alookup d m).getD []) l v)

/-- One sheet of the workbook: the grid of cell texts plus the pandas
column count `len(df.columns)`. -/
structure Sheet where
  cells : List (List String)
  ncols : Nat
deriving DecidableEq

/-- `len(df)`. -/
def Sheet.nrows (s : Sheet) : Nat := s.cells.length

/-- `str(df.iloc[r, c])`: cell text, with the pandas absent-marker "nan"
for a cell outside the stored grid. -/
def Sheet.cell (s : Sheet) (r c : Nat) : String :=
  (((s.cells.get? r).getD []).get? c).getD "nan"

/-- The label-row filter at line 69: blank, "nan", or a standard column
header is skipped. -/
def skipLabel (l : String) : Bool :=
  l = "" || pyLower l = "nan" || l ∈ (["M/S", "MH", "SUD"] : List String)

/-- The four value cells captured for a label row (lines 73-79):
columns `c+1 .. c+4`, out-of-range columns contributing `""`, and the
"nan" sentinel collapsed to `""`. -/
def grabVals (s : Sheet) (r c : Nat) : ValueTuple :=
  (List.range' 1 4).map (fun v_col =>
    if c + v_col < s.ncols then
      let val := pyStrip (s.cell r (c + v_col))
      if pyLower val = "nan" then "" else val
    else "")

/-- The look-ahead window scan below an anchor (lines 64-81): rows
`r+1 .. r+14`, harvesting each non-skipped label into the result. -/
def harvestWindow (s : Sheet) (r c : Nat) (metric : String) (d : ExtractionResult) :
    ExtractionResult :=
  (List.range' 1 14).foldl (fun acc i =>
    if r + i < s.nrows then
      let row_label := pyStrip (s.cell (r + i) c)
      if skipLabel row_label then acc
      else store acc metric row_label (grabVals s (r + i) c)
    else acc) d

/-- The metric loop over one scanned cell (lines 58-81). -/
def scanCell (s : Sheet) (r c : Nat) (d : ExtractionResult) : ExtractionResult :=
  TARGET_METRICS.foldl (fun acc metric =>
    if fragMatch metric (pyStrip (s.cell r c)) then
      harvestWindow s r c metric (ensureKey acc metric)
    else acc) d

/-- The row/column scan over one sheet (lines 54-81): every row, first two
columns. -/
def scanSheet (s : Sheet) (d : ExtractionResult) : ExtractionResult :=
  (List.range s.nrows).foldl (fun acc r =>
    (List.range 2).foldl (fun acc2 c => scanCell s r c acc2) acc) d

/-- Reading one sheet can raise inside the reader; the workbook itself can
also fail to parse at all. -/
inductive Workbook where
  | corrupt (msg : String)
  | sheets (reads : List (Except String Sheet))

/-- The sheet loop under the `try` (lines 46-83): sheets are processed in
order until the first reader failure, whose message is surfaced via
`st.error`; everything gathered so far is kept. -/
def scanSheets : List (Except String Sheet) → ExtractionResult →
    ExtractionResult × Option String
  | [], acc => (acc, none)
  | (Except.ok s) :: rest, acc => scanSheets rest (scanSheet s acc)
  | (Except.error e) :: _, acc => (acc, some e)

/-- `extract_all_data` (lines 40-85): returns the extracted mapping and the
error message shown by `st.error`, if any. -/
def extract_all_data : Workbook → ExtractionResult × Option String
  | Workbook.corrupt msg => ([], some msg)
  | Workbook.sheets reads => scanSheets reads []

/-- A document-table row: the list of its cells' texts (`row.cells`). -/
abbrev Row := List String

/-- A document table: its rows. -/
abbrev Table := List Row

/-- `next((m for m in client_data.keys() if m.lower() in header_text.lower()), None)`
(line 103): the first key of the dict (insertion order) whose fragment
occurs in the header. -/
def findMetric (keys : List String) (header : String) : Option String :=
  keys.find? (fun m => fragMatch m header)

/-- The value-writing loop (lines 114-118), on the cells after the label
cell: position `i` of `vals` goes to cell `i+1`, only when non-empty;
the Bool is `cells_injected`.  The iteration bound
`min(len(data_vals), len(row.cells) - 1)` is realized by the pairwise
recursion stopping at the shorter list. -/
def zipWrite : List String → List String → List String × Bool
  | cs, [] => (cs, false)
  | [], _ :: _ => ([], false)
  | c :: cs, v :: vs =>
    let z := zipWrite cs vs
    if v = "" then (c :: z.1, z.2) else (v :: z.1, true)

/-- The body of the per-row `try` (lines 98-125).  `none` models the
uncaught-inside exception: `row.cells[0]` raising on a row with no cells,
or the (unreachable) `KeyError` on `client_data[current_metric]`.
Returns the updated row, the new `current_metric`, and the `tables_updated`
increment. -/
def injectRowCore (data : ExtractionResult) (st : Option String) (row : Row) :
    Option (Row × Option String × Nat) :=
  match row with
  | [] => none
  | c0 :: rest =>
    match findMetric (data.map Prod.fst) (replaceNewlines (pyStrip c0)) with
    | some m => some (c0 :: rest, some m, 0)
    | none =>
      match st with
      | some cm =>
        match alookup data cm with
        | none => none
        | some labels =>
          match alookup labels (replaceNewlines (pyStrip c0)) with
          | none => some (c0 :: rest,
              if replaceNewlines (pyStrip c0) = "" then none else st, 0)
          | some vals =>
            some (c0 :: (zipWrite rest vals).1,
              if replaceNewlines (pyStrip c0) = "" then none else st,
              if (zipWrite rest vals).2 then 1 else 0)
      | none => some (c0 :: rest,
          if replaceNewlines (pyStrip c0) = "" then none else st, 0)

/-- One row of the walk, with the `except: continue` (lines 127-128):
a failing row is left unchanged and the state and count carry over. -/
def injectRow (data : ExtractionResult) (st : Option String) (row : Row) :
    Row × Option String × Nat :=
  (injectRowCore data st row).getD (row, st, 0)

/-- The row walk of one table (line 97), threading `current_metric`. -/
def injectRows (data : ExtractionResult) (st : Option String) :
    List Row → List Row × Nat
  | [] => ([], 0)
  | row :: rest =>
    let p := injectRow data st row
    let q := injectRows data p.2.1 rest
    (p.1 :: q.1, p.2.2 + q.2)

/-- The table walk (lines 94-128): `current_metric` restarts at `None` for
each table. -/
def injectDoc (data : ExtractionResult) : List Table → List Table × Nat
  | [] => ([], 0)
  | t :: ts =>
    let p := injectRows data none t
    let q := injectDoc data ts
    (p.1 :: q.1, p.2 + q.2)

/-- `inject_data_into_word` (lines 87-130): returns the mutated document
and `tables_updated` (a count of rows, one per row where at least one cell
was written). -/
def inject_data_into_word (doc : List Table) (client_data : ExtractionResult) :
    List Table × Nat :=
  injectDoc client_data doc

/-- Observable outcome of one button press (lines 143-169). -/
structure RunOutcome where
  ranInjection : Bool
  updates : Nat
  warned : Bool
  errMsg : Option String
  outDoc : Option (List Table)
deriving DecidableEq

/-- The main flow (lines 148-169): extraction always runs; injection and
the download are reached only when the extracted dict is non-empty
(`if extracted_data:`), otherwise a warning is shown and the document is
never produced. -/
def runFlow (wb : Workbook) (doc : List Table) : RunOutcome :=
  let ext := extract_all_data wb
  if ext.1.isEmpty then
    ⟨false, 0, true, ext.2, none⟩
  else
    let inj := inject_data_into_word doc ext.1
    ⟨true, inj.2, false, ext.2, some inj.1⟩

/-- Modelled from the spec: the Text Normalizer (`normalize(text) -> key`,
spec section 4.1) is absent from the source under scrutiny; per the spec it
removes every character that is not an ASCII letter or digit and
lower-cases the remainder.  It is used here only to express "two strings
differ only in whitespace, punctuation, or letter case" as equality of
normalized keys. -/
def specNormalize (s : String) : String :=
  String.mk ((s.toList.filter (fun c => c.isAlphanum)).map Char.toLower)

/-- One dict mutation performed by the extractor. -/
inductive Ev where
  | ensure (m : String)
  | put (m l : String) (v : ValueTuple)
deriving DecidableEq

/-- Apply one mutation. -/
def applyEv (d : ExtractionResult) : Ev → ExtractionResult
  | Ev.ensure m => ensureKey d m
  | Ev.put m l v => store d m l v

/-- Apply a trace of mutations in order. -/
def applyEvs (d : ExtractionResult) (evs : List Ev) : ExtractionResult :=
  evs.foldl applyEv d

/-- The store events of one look-ahead window, in scan order. -/
def windowEvs (s : Sheet) (r c : Nat) (metric : String) : List Ev :=
  (List.range' 1 14).flatMap (fun i =>
    if r + i < s.nrows then
      let row_label := pyStrip (s.cell (r + i) c)
      if skipLabel row_label then []
      else [Ev.put metric row_label (grabVals s (r + i) c)]
    else [])

/-- The mutation events of one scanned cell, in scan order. -/
def cellEvs (s : Sheet) (r c : Nat) : List Ev :=
  TARGET_METRICS.flatMap (fun metric =>
    if fragMatch metric (pyStrip (s.cell r c)) then
      Ev.ensure metric :: windowEvs s r c metric
    else [])

/-- The mutation events of one sheet, in scan order. -/
def sheetEvs (s : Sheet) : List Ev :=
  (List.range s.nrows).flatMap (fun r =>
    (List.range 2).flatMap (fun c => cellEvs s r c))

/-- The mutation events of a whole extraction run, in scan order: sheets in
order up to the first reader failure. -/
def wbEvs : Workbook → List Ev
  | Workbook.corrupt _ => []
  | Workbook.sheets reads => sheetsEvs reads
where
  sheetsEvs : List (Except String Sheet) → List Ev
    | [] => []
    | (Except.ok s) :: rest => sheetEvs s ++ sheetsEvs rest
    | (Except.error _) :: _ => []

/-- Two-level lookup `result[m][l]`. -/
def alookup2 (d : ExtractionResult) (m l : String) : Option ValueTuple :=
  (alookup d m).bind (fun labels => alookup labels l)

/-- The value of the last `put` event for `(m, l)` in a trace, starting
from a prior value `o`. -/
def lastPutFrom (o : Option ValueTuple) (evs : List Ev) (m l : String) :
    Option ValueTuple :=
  evs.foldl (fun acc ev =>
    match ev with
    | Ev.ensure _ => acc
    | Ev.put m' l' v => if m' = m ∧ l' = l then some v else acc) o

/-- Whether a document row is matched as a data row under an active metric
(the condition guarding the writes at lines 110-121). -/
def isDataRow (data : ExtractionResult) (st : Option String) (row : Row) : Bool :=
  match row with
  | [] => false
  | c0 :: _ =>
    (findMetric (data.map Prod.fst) (replaceNewlines (pyStrip c0))).isNone &&
      (match st with
       | none => false
       | some cm =>
         match alookup data cm with
         | none => false
         | some labels =>
           (alookup labels (replaceNewlines (pyStrip c0))).isSome)

/-- Invariant of the extraction result: every inner key passed the label
filter of line 69 (non-blank, not "nan", not a standard column header). -/
def GoodResult (d : ExtractionResult) : Prop :=
  ∀ p ∈ d, ∀ q ∈ p.2, skipLabel q.1 = false

/-! ### Association-list semantics (Python dict model) -/

theorem alookup_setKey_self {α : Type} (m : List (String × α)) (k : String) (v : α) :
    alookup (setKey m k v) k = some v := by
  induction m with
  | nil => simp [setKey, alookup]
  | cons p rest ih =>
    by_cases h : p.1 = k
    · simp [setKey, h, alookup]
    · simp [setKey, h, alookup, ih]

theorem alookup_setKey_ne {α : Type} (m : List (String × α)) (k k' : String) (v : α)
    (h : k' ≠ k) : alookup (setKey m k' v) k = alookup m k := by
  induction m with
  | nil => simp [setKey, alookup, h]
  | cons p rest ih =>
    by_cases hp : p.1 = k'
    · simp [setKey, hp, alookup, h]
    · simp [setKey, hp, alookup, ih]

theorem mem_setKey {α : Type} (m : List (String × α)) (k : String) (v : α)
    (p : String × α) (hp : p ∈ setKey m k v) : p = (k, v) ∨ p ∈ m := by
  induction m with
  | nil => simpa [setKey] using hp
  | cons q rest ih =>
    by_cases h : q.1 = k
    · simp only [setKey, h, if_pos rfl] at hp
      rcases List.mem_cons.1 hp with h1 | h1
      · exact Or.inl h1
      · exact Or.inr (List.mem_cons_of_mem _ h1)
    · simp only [setKey, h, if_neg h] at hp
      rcases List.mem_cons.1 hp with h1 | h1
      · exact Or.inr (h1 ▸ List.mem_cons_self _ _)
      · rcases ih h1 with h2 | h2
        · exact Or.inl h2
        · exact Or.inr (List.mem_cons_of_mem _ h2)

theorem alookup_mem {α : Type} (m : List (String × α)) (k : String) (v : α)
    (h : alookup m k = some v) : (k, v) ∈ m := by
  induction m with
  | nil => simp [alookup] at h
  | cons p rest ih =>
    rcases p with ⟨a, b⟩
    by_cases hp : a = k
    · simp only [alookup, if_pos hp] at h
      cases h
      subst hp
      exact List.mem_cons_self _ _
    · simp only [alookup, if_neg hp] at h
      exact List.mem_cons_of_mem _ (ih h)

theorem alookup_append_none {α : Type} (m₁ m₂ : List (String × α)) (k : String)
    (h : alookup m₁ k = none) : alookup (m₁ ++ m₂) k = alookup m₂ k := by
  induction m₁ with
  | nil => simp
  | cons p rest ih =>
    by_cases hp : p.1 = k
    · simp [alookup, hp] at h
    · simp only [alookup, if_neg hp] at h
      simpa [alookup, hp] using ih h

theorem alookup_append_some {α : Type} (m₁ m₂ : List (String × α)) (k : String) (v : α)
    (h : alookup m₁ k = some v) : alookup (m₁ ++ m₂) k = some v := by
  induction m₁ with
  | nil => simp [alookup] at h
  | cons p rest ih =>
    by_cases hp : p.1 = k
    · simp only [alookup, if_pos hp] at h
      simp [alookup, hp, h]
    · simp only [alookup, if_neg hp] at h
      simpa [alookup, hp] using ih h

theorem alookup_ensureKey (d : ExtractionResult) (m k : String) :
    alookup (ensureKey d m) k =
      if m = k ∧ alookup d k = none then some [] else alookup d k := by
  unfold ensureKey
  cases hd : alookup d m with
  | some labels =>
    simp only [hd, Option.isSome_some, if_true]
    by_cases hmk : m = k
    · subst hmk; simp [hd]
    · simp [hmk]
  | none =>
    simp only [hd, Option.isSome_none, Bool.false_eq_true, if_false]
    by_cases hmk : m = k
    · subst hmk
      rw [alookup_append_none _ _ _ hd]
      simp [alookup, hd]
    · by_cases hk : alookup d k = none
      · rw [alookup_append_none _ _ _ hk]
        simp [alookup, hmk, hk]
      · rcases Option.ne_none_iff_exists'.1 hk with ⟨v, hv⟩
        rw [alookup_append_some _ _ _ _ hv, hv]
        simp [hmk]

theorem alookup2_ensureKey (d : ExtractionResult) (m' m l : String) :
    alookup2 (ensureKey d m') m l = alookup2 d m l := by
  unfold alookup2
  rw [alookup_ensureKey]
  split
  · rename_i hc
    rw [hc.2]
    simp [alookup]
  · rfl

theorem alookup2_store_self (d : ExtractionResult) (m l : String) (v : ValueTuple) :
    alookup2 (store d m l v) m l = some v := by
  unfold alookup2 store
  rw [alookup_setKey_self]
  simp [alookup_setKey_self]

theorem alookup2_store_ne (d : ExtractionResult) (m' l' m l : String) (v : ValueTuple)
    (h : ¬(m' = m ∧ l' = l)) : alookup2 (store d m' l' v) m l = alookup2 d m l := by
  unfold alookup2 store
  by_cases hm : m' = m
  · subst hm
    have hl : l' ≠ l := fun hc => h ⟨rfl, hc⟩
    rw [alookup_setKey_self]
    simp only [Option.some_bind]
    rw [alookup_setKey_ne _ _ _ _ hl]
    cases hd : alookup d m' with
    | none => simp [hd, alookup]
    | some labels => simp [hd]
  · rw [alookup_setKey_ne _ _ _ _ hm]

theorem alookup_store_isSome (d : ExtractionResult) (m' l' k : String) (v : ValueTuple)
    (h : (alookup d k).isSome) : (alookup (store d m' l' v) k).isSome := by
  unfold store
  by_cases hm : m' = k
  · subst hm; rw [alookup_setKey_self]; rfl
  · rw [alookup_setKey_ne _ _ _ _ hm]; exact h

theorem alookup_ensureKey_isSome (d : ExtractionResult) (m' k : String)
    (h : (alookup d k).isSome) : (alookup (ensureKey d m') k).isSome := by
  rw [alookup_ensureKey]
  split
  · rfl
  · exact h

theorem alookup_ensureKey_self_isSome (d : ExtractionResult) (m : String) :
    (alookup (ensureKey d m) m).isSome := by
  rw [alookup_ensureKey]
  split
  · rfl
  · rename_i hc
    rcases Decidable.not_and_iff_or_not.1 hc with h | h
    · exact absurd rfl h
    · simpa [Option.isSome] using Option.ne_none_iff_isSome.1 h

/-! ### Generic fold helpers -/

theorem foldl_preserve {α β : Type} (P : β → Prop) (f : β → α → β)
    (hf : ∀ b a, P b → P (f b a)) :
    ∀ (l : List α) (b : β), P b → P (l.foldl f b) := by
  intro l
  induction l with
  | nil => intro b hb; exact hb
  | cons a t ih => intro b hb; exact ih (f b a) (hf b a hb)

theorem foldl_fixed {α β : Type} (f : β → α → β) (l : List α)
    (h : ∀ a ∈ l, ∀ x, f x a = x) : ∀ b, l.foldl f b = b := by
  induction l with
  | nil => intro b; rfl
  | cons a t ih =>
    intro b
    rw [List.foldl_cons, h a (List.mem_cons_self _ _) b]
    exact ih (fun a ha x => h a (List.mem_cons_of_mem _ ha) x) b

theorem applyEvs_append (d : ExtractionResult) (e₁ e₂ : List Ev) :
    applyEvs d (e₁ ++ e₂) = applyEvs (applyEvs d e₁) e₂ :=
  List.foldl_append applyEv d e₁ e₂

theorem foldl_evs {α : Type} (g : ExtractionResult → α → ExtractionResult)
    (h : α → List Ev) (hg : ∀ d a, g d a = applyEvs d (h a)) :
    ∀ (l : List α) (d : ExtractionResult), l.foldl g d = applyEvs d (l.flatMap h) := by
  intro l
  induction l with
  | nil => intro d; rfl
  | cons a t ih =>
    intro d
    rw [List.foldl_cons, List.flatMap_cons, applyEvs_append, ← hg d a]
    exact ih (g d a)

/-! ### Value-writing lemmas -/

theorem zipWrite_length (cs : List String) : ∀ vs : List String,
    ((zipWrite cs vs).1).length = cs.length := by
  induction cs with
  | nil => intro vs; cases vs <;> simp [zipWrite]
  | cons c cs ih =>
    intro vs
    cases vs with
    | nil => simp [zipWrite]
    | cons v vs =>
      by_cases hv : v = ""
      · simp [zipWrite, hv, ih vs]
      · simp [zipWrite, hv, ih vs]

theorem zipWrite_idem (cs : List String) : ∀ vs : List String,
    zipWrite (zipWrite cs vs).1 vs = zipWrite cs vs := by
  induction cs with
  | nil => intro vs; cases vs <;> simp [zipWrite]
  | cons c cs ih =>
    intro vs
    cases vs with
    | nil => simp [zipWrite]
    | cons v vs =>
      by_cases hv : v = ""
      · simp [zipWrite, hv, ih vs]
      · simp [zipWrite, hv, ih vs]

theorem zipWrite_get_empty (cs : List String) : ∀ (vs : List String) (j : Nat),
    vs[j]? = some "" → ((zipWrite cs vs).1)[j]? = cs[j]? := by
  induction cs with
  | nil => intro vs j _; cases vs <;> simp [zipWrite]
  | cons c cs ih =>
    intro vs j h
    cases vs with
    | nil => simp [zipWrite]
    | cons v vs =>
      cases j with
      | zero =>
        have hv : v = "" := by simpa using h
        subst hv
        simp [zipWrite]
      | succ j =>
        have h' : vs[j]? = some "" := by simpa using h
        by_cases hv : v = ""
        · simp [zipWrite, hv, ih vs j h']
        · simp [zipWrite, hv, ih vs j h']

theorem zipWrite_flag_empty (cs : List String) : ∀ vs : List String,
    (∀ v ∈ vs, v = "") → (zipWrite cs vs).2 = false := by
  induction cs with
  | nil => intro vs _; cases vs <;> simp [zipWrite]
  | cons c cs ih =>
    intro vs h
    cases vs with
    | nil => simp [zipWrite]
    | cons v vs =>
      have hv : v = "" := h v (List.mem_cons_self _ _)
      subst hv
      simp [zipWrite, ih vs (fun x hx => h x (List.mem_cons_of_mem _ hx))]

/-! ### Per-row structural lemmas for the injector -/

theorem injectRow_nil (data : ExtractionResult) (st : Option String) :
    injectRow data st [] = ([], st, 0) := rfl

theorem injectRow_hdrMetric (data : ExtractionResult) (st : Option String)
    (m c0 : String) (rest : Row)
    (hfm : findMetric (data.map Prod.fst) (replaceNewlines (pyStrip c0)) = some m) :
    injectRow data st (c0 :: rest) = (c0 :: rest, some m, 0) := by
  simp only [injectRow, injectRowCore, hfm, Option.getD_some]

theorem injectRow_noActive (data : ExtractionResult) (c0 : String) (rest : Row)
    (hfm : findMetric (data.map Prod.fst) (replaceNewlines (pyStrip c0)) = none) :
    injectRow data none (c0 :: rest) = (c0 :: rest, none, 0) := by
  simp only [injectRow, injectRowCore, hfm, Option.getD_some, ite_self]

theorem injectRow_keyError (data : ExtractionResult) (cm c0 : String) (rest : Row)
    (hfm : findMetric (data.map Prod.fst) (replaceNewlines (pyStrip c0)) = none)
    (hd : alookup data cm = none) :
    injectRow data (some cm) (c0 :: rest) = (c0 :: rest, some cm, 0) := by
  simp only [injectRow, injectRowCore, hfm, hd, Option.getD_none]

theorem injectRow_noLabel (data : ExtractionResult) (cm : String)
    (labels : LabelMap) (c0 : String) (rest : Row)
    (hfm : findMetric (data.map Prod.fst) (replaceNewlines (pyStrip c0)) = none)
    (hd : alookup data cm = some labels)
    (hl : alookup labels (replaceNewlines (pyStrip c0)) = none) :
    injectRow data (some cm) (c0 :: rest) =
      (c0 :: rest,
       if replaceNewlines (pyStrip c0) = "" then none else some cm, 0) := by
  simp only [injectRow, injectRowCore, hfm, hd, hl, Option.getD_some]

theorem injectRow_dataRow (data : ExtractionResult) (cm : String)
    (labels : LabelMap) (vals : ValueTuple) (c0 : String) (rest : Row)
    (hfm : findMetric (data.map Prod.fst) (replaceNewlines (pyStrip c0)) = none)
    (hd : alookup data cm = some labels)
    (hl : alookup labels (replaceNewlines (pyStrip c0)) = some vals) :
    injectRow data (some cm) (c0 :: rest) =
      (c0 :: (zipWrite rest vals).1,
       if replaceNewlines (pyStrip c0) = "" then none else some cm,
       if (zipWrite rest vals).2 then 1 else 0) := by
  simp only [injectRow, injectRowCore, hfm, hd, hl, Option.getD_some]

theorem injectRow_shape (data : ExtractionResult) (st : Option String)
    (c0 : String) (rest : Row) :
    ∃ rest2 : List String, (injectRow data st (c0 :: rest)).1 = c0 :: rest2 ∧
      rest2.length = rest.length := by
  simp only [injectRow, injectRowCore]
  repeat' split
  all_goals first
    | exact ⟨rest, rfl, rfl⟩
    | exact ⟨_, rfl, zipWrite_length rest _⟩

theorem injectRow_head (data : ExtractionResult) (st : Option String) (row : Row) :
    ((injectRow data st row).1).get? 0 = row.get? 0 := by
  cases row with
  | nil => rfl
  | cons c0 rest =>
    rcases injectRow_shape data st c0 rest with ⟨rest2, h2, _⟩
    rw [h2]
    rfl

theorem injectRow_length (data : ExtractionResult) (st : Option String) (row : Row) :
    ((injectRow data st row).1).length = row.length := by
  cases row with
  | nil => rfl
  | cons c0 rest =>
    rcases injectRow_shape data st c0 rest with ⟨rest2, h2, hlen⟩
    rw [h2]
    simp [hlen]

theorem injectRow_unmatched (data : ExtractionResult) (st : Option String) (row : Row)
    (h : isDataRow data st row = false) : (injectRow data st row).1 = row := by
  cases row with
  | nil => rfl
  | cons c0 rest =>
    cases hfm : findMetric (data.map Prod.fst) (replaceNewlines (pyStrip c0)) with
    | some m => rw [injectRow_hdrMetric data st m c0 rest hfm]
    | none =>
      cases st with
      | none => rw [injectRow_noActive data c0 rest hfm]
      | some cm =>
        cases hd : alookup data cm with
        | none => rw [injectRow_keyError data cm c0 rest hfm hd]
        | some labels =>
          cases hl : alookup labels (replaceNewlines (pyStrip c0)) with
          | none => rw [injectRow_noLabel data cm labels c0 rest hfm hd hl]
          | some vals =>
            exfalso
            simp [isDataRow, hfm, hd, hl] at h

theorem injectRow_idem (data : ExtractionResult) (st : Option String) (row : Row) :
    injectRow data st (injectRow data st row).1 = injectRow data st row := by
  cases row with
  | nil => rfl
  | cons c0 rest =>
    cases hfm : findMetric (data.map Prod.fst) (replaceNewlines (pyStrip c0)) with
    | some m =>
      have h1 := injectRow_hdrMetric data st m c0 rest hfm
      rw [h1]
      exact h1
    | none =>
      cases st with
      | none =>
        have h1 := injectRow_noActive data c0 rest hfm
        rw [h1]
        exact h1
      | some cm =>
        cases hd : alookup data cm with
        | none =>
          have h1 := injectRow_keyError data cm c0 rest hfm hd
          rw [h1]
          exact h1
        | some labels =>
          cases hl : alookup labels (replaceNewlines (pyStrip c0)) with
          | none =>
            have h1 := injectRow_noLabel data cm labels c0 rest hfm hd hl
            rw [h1]
            exact h1
          | some vals =>
            have h1 := injectRow_dataRow data cm labels vals c0 rest hfm hd hl
            rw [h1]
            have h2 := injectRow_dataRow data cm labels vals c0
              (zipWrite rest vals).1 hfm hd hl
            rw [h2, zipWrite_idem rest vals]

/-! ### Table-walk lemmas -/

theorem injectRows_idem (data : ExtractionResult) :
    ∀ (rows : List Row) (st : Option String),
      injectRows data st (injectRows data st rows).1 = injectRows data st rows := by
  intro rows
  induction rows with
  | nil => intro st; rfl
  | cons row rest ih =>
    intro st
    have hr := injectRow_idem data st row
    simp only [injectRows, hr, ih]

theorem injectDoc_idem (data : ExtractionResult) :
    ∀ doc : List Table, injectDoc data (injectDoc data doc).1 = injectDoc data doc := by
  intro doc
  induction doc with
  | nil => rfl
  | cons t ts ih =>
    simp only [injectDoc, injectRows_idem data t none, ih]

theorem injectRows_heads (data : ExtractionResult) :
    ∀ (rows : List Row) (st : Option String),
      ((injectRows data st rows).1).map (fun r => r.get? 0) =
        rows.map (fun r => r.get? 0) := by
  intro rows
  induction rows with
  | nil => intro st; rfl
  | cons row rest ih =>
    intro st
    simp only [injectRows, List.map_cons, injectRow_head data st row, ih]

theorem injectDoc_heads (data : ExtractionResult) :
    ∀ doc : List Table,
      ((injectDoc data doc).1).map (List.map (fun r => r.get? 0)) =
        doc.map (List.map (fun r => r.get? 0)) := by
  intro doc
  induction doc with
  | nil => rfl
  | cons t ts ih =>
    simp only [injectDoc, List.map_cons, injectRows_heads data t none, ih]

/-! ### Claim theorems -/

/-- C5: `inject` is idempotent — running `inject_data_into_word` a second
time on the document produced by the first run, with the same
ExtractionResult, leaves every cell identical and returns the same
`rows_updated` count (values are assigned, never appended). -/
theorem c5_inject_idempotent (data : ExtractionResult) (doc : List Table) :
    inject_data_into_word (inject_data_into_word doc data).1 data =
      inject_data_into_word doc data := by
  simp only [inject_data_into_word]
  exact injectDoc_idem data doc

/-- C7: the injector never aborts on a malformed row — a row on which the
per-row body raises (modelled by `injectRowCore` returning `none`, e.g. a
row with no cells) is caught and skipped, the walk continuing with the
remaining rows unchanged in behaviour; and every processed row keeps its
cell count, so writes land only in cells that exist. -/
theorem c7_row_failure_skipped (data : ExtractionResult) (st : Option String)
    (row : Row) (rows : List Row) :
    (injectRowCore data st row = none →
      injectRows data st (row :: rows) =
        (row :: (injectRows data st rows).1, (injectRows data st rows).2))
    ∧ ((injectRow data st row).1).length = row.length := by
  constructor
  · intro h
    simp only [injectRows, injectRow, h, Option.getD_none, Nat.zero_add]
  · exact injectRow_length data st row

/-- C7 witness: a concrete zero-cell row (on which `row.cells[0]` raises in
the source) is skipped without aborting the walk, and a concrete short row
keeps its single cell. -/
theorem c7_row_failure_skipped_witness :
    (injectRows [] none ([] :: [["a"]]) =
      ([] :: (injectRows [] none [["a"]]).1, (injectRows [] none [["a"]]).2))
    ∧ ((injectRow [("m", [("L", ["1", "2", "3", "4"])])] (some "m") ["L"]).1).length =
        (["L"] : Row).length :=
  ⟨(c7_row_failure_skipped [] none [] [["a"]]).1 rfl,
   (c7_row_failure_skipped [("m", [("L", ["1", "2", "3", "4"])])] (some "m") ["L"] []).2⟩

/-- C10: the injector never modifies the header/label cell (index 0) of any
row — the column-0 contents of every table are preserved exactly — and a
row that is not matched as a data row under an active metric is left
completely unchanged. -/
theorem c10_frame :
    (∀ (data : ExtractionResult) (doc : List Table),
      ((inject_data_into_word doc data).1).map (List.map (fun r => r.get? 0)) =
        doc.map (List.map (fun r => r.get? 0)))
    ∧ (∀ (data : ExtractionResult) (st : Option String) (row : Row),
        isDataRow data st row = false → (injectRow data st row).1 = row) := by
  constructor
  · intro data doc
    simp only [inject_data_into_word]
    exact injectDoc_heads data doc
  · exact injectRow_unmatched

/-- C10 witness: a concrete row whose label is not in the active metric's
entries is left unchanged by the injector. -/
theorem c10_frame_witness :
    (injectRow [("m", [("L", ["1"])])] (some "m") ["other", "x"]).1 =
      ["other", "x"] :=
  c10_frame.2 [("m", [("L", ["1"])])] (some "m") ["other", "x"] (by decide)

/-- C6: on a matched label row, only positions whose ValueTuple element is
non-empty are written — an empty element leaves the corresponding target
cell's prior text unchanged — and a row whose elements are all empty does
not increment the update count. -/
theorem c6_nondestructive_skip (data : ExtractionResult) (cm : String)
    (labels : LabelMap) (vals : ValueTuple) (c0 : String) (rest : Row)
    (hfm : findMetric (data.map Prod.fst) (replaceNewlines (pyStrip c0)) = none)
    (hd : alookup data cm = some labels)
    (hl : alookup labels (replaceNewlines (pyStrip c0)) = some vals) :
    (∀ j : Nat, vals[j]? = some "" →
      ((injectRow data (some cm) (c0 :: rest)).1)[j + 1]? = (c0 :: rest)[j + 1]?)
    ∧ ((∀ v ∈ vals, v = "") → (injectRow data (some cm) (c0 :: rest)).2.2 = 0) := by
  rw [injectRow_dataRow data cm labels vals c0 rest hfm hd hl]
  constructor
  · intro j hj
    simp only [List.getElem?_cons_succ]
    exact zipWrite_get_empty rest vals j hj
  · intro hall
    show (if (zipWrite rest vals).2 then 1 else 0) = 0
    rw [zipWrite_flag_empty rest vals hall]
    rfl

/-- C6 witness: with stored tuple `["", ""]`, a matched row's cell 1 keeps
its prior text and the row does not count as updated. -/
theorem c6_nondestructive_skip_witness :
    ((injectRow [("m", [("L", ["", ""])])] (some "m") ["L", "x"]).1)[1]? =
      ((["L", "x"] : Row))[1]?
    ∧ (injectRow [("m", [("L", ["", ""])])] (some "m") ["L", "x"]).2.2 = 0 :=
  ⟨(c6_nondestructive_skip [("m", [("L", ["", ""])])] "m" [("L", ["", ""])]
      ["", ""] "L" ["x"] (by decide) (by decide) (by decide)).1 0 (by decide),
   (c6_nondestructive_skip [("m", [("L", ["", ""])])] "m" [("L", ["", ""])]
      ["", ""] "L" ["x"] (by decide) (by decide) (by decide)).2 (by decide)⟩

/-! ### Extraction as a trace of dict mutations (for C4) -/

theorem harvestWindow_evs (s : Sheet) (r c : Nat) (metric : String)
    (d : ExtractionResult) :
    harvestWindow s r c metric d = applyEvs d (windowEvs s r c metric) := by
  unfold harvestWindow windowEvs
  refine foldl_evs _ _ ?_ _ d
  intro d' i
  by_cases h1 : r + i < s.nrows
  · by_cases h2 : skipLabel (pyStrip (s.cell (r + i) c))
    · simp [h1, h2, applyEvs]
    · simp [h1, h2, applyEvs, applyEv]
  · simp [h1, applyEvs]

theorem scanCell_evs (s : Sheet) (r c : Nat) (d : ExtractionResult) :
    scanCell s r c d = applyEvs d (cellEvs s r c) := by
  unfold scanCell cellEvs
  refine foldl_evs _ _ ?_ _ d
  intro d' metric
  by_cases h : fragMatch metric (pyStrip (s.cell r c))
  · simp only [h, if_true]
    rw [harvestWindow_evs]
    rfl
  · simp [h, applyEvs]

theorem scanSheet_evs (s : Sheet) (d : ExtractionResult) :
    scanSheet s d = applyEvs d (sheetEvs s) := by
  unfold scanSheet sheetEvs
  refine foldl_evs _ _ ?_ _ d
  intro d' r
  refine foldl_evs _ _ ?_ _ d'
  intro d2 c
  exact scanCell_evs s r c d2

theorem scanSheets_evs : ∀ (reads : List (Except String Sheet)) (d : ExtractionResult),
    (scanSheets reads d).1 = applyEvs d (wbEvs.sheetsEvs reads) := by
  intro reads
  induction reads with
  | nil => intro d; rfl
  | cons x rest ih =>
    intro d
    cases x with
    | ok s =>
      show (scanSheets rest (scanSheet s d)).1 = _
      rw [ih, scanSheet_evs]
      show applyEvs (applyEvs d (sheetEvs s)) (wbEvs.sheetsEvs rest) = _
      rw [← applyEvs_append]
      rfl
    | error e => rfl

theorem extract_evs (wb : Workbook) :
    (extract_all_data wb).1 = applyEvs [] (wbEvs wb) := by
  cases wb with
  | corrupt msg => rfl
  | sheets reads => exact scanSheets_evs reads []

theorem alookup2_applyEv (d : ExtractionResult) (ev : Ev) (m l : String) :
    alookup2 (applyEv d ev) m l =
      (match ev with
       | Ev.ensure _ => alookup2 d m l
       | Ev.put m' l' v => if m' = m ∧ l' = l then some v else alookup2 d m l) := by
  cases ev with
  | ensure m' => exact alookup2_ensureKey d m' m l
  | put m' l' v =>
    by_cases h : m' = m ∧ l' = l
    · rcases h with ⟨h1, h2⟩
      subst h1
      subst h2
      simp [applyEv, alookup2_store_self]
    · simp only [applyEv]
      rw [alookup2_store_ne d m' l' m l v h]
      simp [h]

theorem alookup2_applyEvs : ∀ (evs : List Ev) (d : ExtractionResult) (m l : String),
    alookup2 (applyEvs d evs) m l = lastPutFrom (alookup2 d m l) evs m l := by
  intro evs
  induction evs with
  | nil => intros; rfl
  | cons ev rest ih =>
    intro d m l
    show alookup2 (applyEvs (applyEv d ev) rest) m l = _
    rw [ih]
    unfold lastPutFrom
    simp only [List.foldl_cons]
    congr 1
    exact alookup2_applyEv d ev m l

/-- C4: overwrite-on-recurrence — the extraction result is exactly the
replay, in scan order, of its trace of dict mutations, and looking up any
(metric, label) pair in a replayed trace yields precisely the value of the
last `put` for that pair (earlier values are overwritten, never merged);
in particular the extracted value of every (metric, label) pair is the
last one stored in scan order. -/
theorem c4_last_write_wins :
    (∀ wb : Workbook, (extract_all_data wb).1 = applyEvs [] (wbEvs wb))
    ∧ (∀ (evs : List Ev) (m l : String),
        alookup2 (applyEvs [] evs) m l = lastPutFrom none evs m l)
    ∧ (∀ (wb : Workbook) (m l : String),
        alookup2 (extract_all_data wb).1 m l = lastPutFrom none (wbEvs wb) m l) := by
  have h2 : ∀ (evs : List Ev) (m l : String),
      alookup2 (applyEvs [] evs) m l = lastPutFrom none evs m l := by
    intro evs m l
    have h := alookup2_applyEvs evs [] m l
    simpa [alookup2, alookup] using h
  refine ⟨extract_evs, h2, ?_⟩
  intro wb m l
  rw [extract_evs wb]
  exact h2 (wbEvs wb) m l

/-- C9: the look-ahead window below a metric anchor is one fixed constant
W = 14 for every anchor, and 10 ≤ W ≤ 15; the window scan depends only on
the cells of rows r+1 .. r+14 (together with the fixed grid dimensions),
and when every window row lies outside the grid the scan contributes
nothing — out-of-bounds candidate rows are skipped, not an error. -/
theorem c9_window_bounded :
    ((10 : Nat) ≤ 14 ∧ (14 : Nat) ≤ 15)
    ∧ (∀ (s1 s2 : Sheet) (r c : Nat) (metric : String) (d : ExtractionResult),
        s1.nrows = s2.nrows → s1.ncols = s2.ncols →
        (∀ i : Nat, 1 ≤ i → i ≤ 14 → ∀ j : Nat, s1.cell (r + i) j = s2.cell (r + i) j) →
        harvestWindow s1 r c metric d = harvestWindow s2 r c metric d)
    ∧ (∀ (s : Sheet) (r c : Nat) (metric : String) (d : ExtractionResult),
        s.nrows ≤ r + 1 → harvestWindow s r c metric d = d) := by
  refine ⟨⟨by omega, by omega⟩, ?_, ?_⟩
  · intro s1 s2 r c metric d hn hc hcell
    unfold harvestWindow
    refine List.foldl_ext _ _ d ?_
    intro acc i hi
    have hi1 := List.mem_range'_1.mp hi
    have hle : i ≤ 14 := by omega
    have hri : s1.cell (r + i) c = s2.cell (r + i) c := hcell i hi1.1 hle c
    have hgrab : grabVals s1 (r + i) c = grabVals s2 (r + i) c := by
      unfold grabVals
      refine List.map_congr_left ?_
      intro v_col _
      rw [hc, hcell i hi1.1 hle (c + v_col)]
    simp only [hn, hri, hgrab]
  · intro s r c metric d h
    unfold harvestWindow
    refine foldl_fixed _ _ ?_ d
    intro i hi acc
    have hi1 := List.mem_range'_1.mp hi
    have hlt : ¬(r + i < s.nrows) := by omega
    simp [hlt]

/-- C9 witness: two sheets that differ only in the anchor row itself give
the same window harvest, and a window fully below the grid leaves the
result untouched. -/
theorem c9_window_bounded_witness :
    harvestWindow ⟨[["a"], ["b"]], 1⟩ 0 0 "m" [] =
      harvestWindow ⟨[["z"], ["b"]], 1⟩ 0 0 "m" []
    ∧ harvestWindow ⟨[["a"], ["b"]], 1⟩ 5 0 "m" [("k", [])] = [("k", [])] := by
  constructor
  · refine c9_window_bounded.2.1 ⟨[["a"], ["b"]], 1⟩ ⟨[["z"], ["b"]], 1⟩ 0 0 "m" []
      rfl rfl ?_
    intro i h1 h2 j
    interval_cases i <;> rfl
  · exact c9_window_bounded.2.2 ⟨[["a"], ["b"]], 1⟩ 5 0 "m" [("k", [])] (by decide)

/-- C1 counterexample: the two label strings "Inpatient IN" and
"inpatient in" differ only in letter case — their spec-normalized keys are
equal — yet the injector updates the row for the first and not for the
second: its label matching is exact string equality, not normalized-key
equality, so such differences do change which rows match. -/
theorem c1_counterexample :
    specNormalize "Inpatient IN" = specNormalize "inpatient in"
    ∧ inject_data_into_word [[["m"], ["Inpatient IN", "x"]]]
        [("m", [("Inpatient IN", ["7"])])] =
      ([[["m"], ["Inpatient IN", "7"]]], 1)
    ∧ inject_data_into_word [[["m"], ["inpatient in", "x"]]]
        [("m", [("Inpatient IN", ["7"])])] =
      ([[["m"], ["inpatient in", "x"]]], 0) :=
  ⟨by decide, by decide, by decide⟩

/-- C1 amended: metric matching (shared by the extractor's anchoring and
the injector's header matching) is case-insensitive substring containment
of the raw text — invariant under lower-casing, but sensitive to
whitespace and punctuation — while the injector's label matching demands
the literal key: a label lookup succeeds only for a string that is
exactly a stored key. -/
theorem c1_amended :
    (∀ (metric h1 h2 : String), pyLower h1 = pyLower h2 →
      fragMatch metric h1 = fragMatch metric h2)
    ∧ (∀ (labels : LabelMap) (k : String) (v : ValueTuple),
        alookup labels k = some v → (k, v) ∈ labels) := by
  constructor
  · intro metric h1 h2 h
    unfold fragMatch
    rw [h]
  · exact alookup_mem

/-- C1 amended witness: concrete case-variant headers match identically,
and a concrete label lookup returns only a literally stored key. -/
theorem c1_amended_witness :
    pyLower "Claims DENIED" = pyLower "claims denied"
    ∧ fragMatch "denied" "Claims DENIED" = fragMatch "denied" "claims denied"
    ∧ (("Inpatient IN", (["7"] : ValueTuple)) ∈
        ([("Inpatient IN", ["7"])] : LabelMap)) :=
  ⟨by decide, c1_amended.1 "denied" "Claims DENIED" "claims denied" (by decide),
   c1_amended.2 [("Inpatient IN", ["7"])] "Inpatient IN" ["7"] (by decide)⟩

/-- C8 counterexample: a single cell holding the text of the
"... Overturned on Appeal" metric also contains the shorter metric's
fragment; the extractor anchors BOTH metrics for that one cell (the
metric loop has no break), so the earliest-declared metric does not win
exclusively. -/
theorem c8_counterexample :
    ((extract_all_data (Workbook.sheets [Except.ok
        ⟨[["Percentage (%) of Claims Denied Based on Lack of Medical Necessity Overturned on Appeal",
           "nan"], ["L", "1"]], 2⟩])).1).map Prod.fst =
      ["Percentage (%) of Claims Denied Based on Lack of Medical Necessity",
       "Percentage (%) of Claims Denied Based on Lack of Medical Necessity Overturned on Appeal"]
    ∧ ("Percentage (%) of Claims Denied Based on Lack of Medical Necessity" : String) ≠
        "Percentage (%) of Claims Denied Based on Lack of Medical Necessity Overturned on Appeal" :=
  ⟨by decide, by decide⟩

theorem find?_first {α : Type} (p : α → Bool) : ∀ (l : List α) (a : α),
    l.find? p = some a →
    ∃ l1 l2, l = l1 ++ a :: l2 ∧ p a = true ∧ ∀ x ∈ l1, p x = false := by
  intro l
  induction l with
  | nil => intro a h; simp [List.find?] at h
  | cons x t ih =>
    intro a h
    by_cases hp : p x
    · rw [List.find?_cons_of_pos _ hp] at h
      cases h
      exact ⟨[], t, rfl, hp, by simp⟩
    · rw [List.find?_cons_of_neg _ (by simpa using hp)] at h
      rcases ih a h with ⟨l1, l2, heq, hpa, hall⟩
      refine ⟨x :: l1, l2, by rw [heq]; rfl, hpa, ?_⟩
      intro y hy
      rcases List.mem_cons.mp hy with h1 | h1
      · subst h1; simpa using hp
      · exact hall y h1

theorem harvestWindow_keeps_key (s : Sheet) (r c : Nat) (metric : String)
    (d : ExtractionResult) (k : String) (h : (alookup d k).isSome) :
    (alookup (harvestWindow s r c metric d) k).isSome := by
  unfold harvestWindow
  refine foldl_preserve (fun x => (alookup x k).isSome) _ ?_ _ d h
  intro acc i hacc
  by_cases h1 : r + i < s.nrows
  · by_cases h2 : skipLabel (pyStrip (s.cell (r + i) c))
    · simp [h1, h2, hacc]
    · simp only [h1, if_true, h2, Bool.false_eq_true, if_false]
      exact alookup_store_isSome _ _ _ _ _ hacc
  · simp [h1, hacc]

theorem scanCell_anchors (s : Sheet) (r c : Nat) (d : ExtractionResult)
    (metric : String) (hmem : metric ∈ TARGET_METRICS)
    (hmatch : fragMatch metric (pyStrip (s.cell r c)) = true) :
    (alookup (scanCell s r c d) metric).isSome := by
  unfold scanCell
  rcases List.append_of_mem hmem with ⟨l1, l2, heq⟩
  rw [heq, List.foldl_append, List.foldl_cons]
  simp only [hmatch, if_true]
  refine foldl_preserve (fun x => (alookup x metric).isSome) _ ?_ l2 _ ?_
  · intro b a hb
    by_cases hf : fragMatch a (pyStrip (s.cell r c))
    · simp only [hf, if_true]
      exact harvestWindow_keeps_key s r c a _ metric
        (alookup_ensureKey_isSome b a metric hb)
    · simp [hf, hb]
  · exact harvestWindow_keeps_key s r c metric _ metric
      (alookup_ensureKey_self_isSome _ metric)

/-- C8 amended: in the injector's header matching, the FIRST key of the
extraction result (in insertion order) whose fragment occurs in the header
wins — every earlier key fails the test; in the extractor there is no such
precedence: every cataloged metric whose fragment matches a scanned cell
is anchored (its key is present in the result), not only the
earliest-declared one. -/
theorem c8_amended :
    (∀ (keys : List String) (header : String) (m : String),
      findMetric keys header = some m →
      ∃ pre post, keys = pre ++ m :: post ∧ fragMatch m header = true ∧
        ∀ m2 ∈ pre, fragMatch m2 header = false)
    ∧ (∀ (s : Sheet) (r c : Nat) (d : ExtractionResult) (metric : String),
        metric ∈ TARGET_METRICS →
        fragMatch metric (pyStrip (s.cell r c)) = true →
        (alookup (scanCell s r c d) metric).isSome) := by
  constructor
  · intro keys header m h
    exact find?_first _ keys m h
  · intro s r c d metric hmem hmatch
    exact scanCell_anchors s r c d metric hmem hmatch

/-- C8 amended witness: concrete first-match selection by the injector,
and a concrete anchored metric present in the extractor's result. -/
theorem c8_amended_witness :
    (∃ pre post, (["aa", "b"] : List String) = pre ++ "b" :: post ∧
       fragMatch "b" "xbx" = true ∧ ∀ m2 ∈ pre, fragMatch m2 "xbx" = false)
    ∧ (alookup (scanCell
        ⟨[["Number (#) of Total Claims Incurred During the Plan Year"]], 1⟩ 0 0 [])
        "Number (#) of Total Claims Incurred During the Plan Year").isSome :=
  ⟨c8_amended.1 ["aa", "b"] "xbx" "b" (by decide),
   c8_amended.2 ⟨[["Number (#) of Total Claims Incurred During the Plan Year"]], 1⟩
     0 0 [] "Number (#) of Total Claims Incurred During the Plan Year"
     (by decide) (by decide)⟩

/-- C2 counterexample: a workbook whose look-ahead window holds the five
pairwise-distinct labels "A" .. "E" yields an ExtractionResult with five
distinct inner keys under one metric — more than any fixed closed set of
four category tokens can contain, and none of them is a category token at
all; the extractor has no four-token restriction on label rows. -/
theorem c2_counterexample :
    ((extract_all_data (Workbook.sheets [Except.ok
        ⟨[["Number (#) of Total Claims Incurred During the Plan Year", "nan"],
          ["A", "1"], ["B", "1"], ["C", "1"], ["D", "1"], ["E", "1"]], 2⟩])).1).map
        (fun p => (p.1, p.2.map Prod.fst)) =
      [("Number (#) of Total Claims Incurred During the Plan Year",
        ["A", "B", "C", "D", "E"])]
    ∧ (["A", "B", "C", "D", "E"] : List String).Nodup
    ∧ 4 < (["A", "B", "C", "D", "E"] : List String).length :=
  ⟨by set_option maxRecDepth 40000 in decide, by decide, by decide⟩

theorem goodResult_ensure (d : ExtractionResult) (m : String)
    (hd : GoodResult d) : GoodResult (ensureKey d m) := by
  intro p hp q hq
  unfold ensureKey at hp
  split at hp
  · exact hd p hp q hq
  · rcases List.mem_append.mp hp with h1 | h1
    · exact hd p h1 q hq
    · simp only [List.mem_singleton] at h1
      subst h1
      simp at hq

theorem goodResult_store (d : ExtractionResult) (m l : String) (v : ValueTuple)
    (hd : GoodResult d) (hl : skipLabel l = false) : GoodResult (store d m l v) := by
  intro p hp q hq
  unfold store at hp
  rcases mem_setKey _ _ _ _ hp with h1 | h1
  · subst h1
    rcases mem_setKey _ _ _ _ hq with h2 | h2
    · subst h2; exact hl
    · cases hm : alookup d m with
      | none => rw [hm] at h2; simp at h2
      | some labels =>
        rw [hm] at h2
        exact hd (m, labels) (alookup_mem d m labels hm) q h2
  · exact hd p h1 q hq

theorem goodResult_harvest (s : Sheet) (r c : Nat) (metric : String)
    (d : ExtractionResult) (hd : GoodResult d) :
    GoodResult (harvestWindow s r c metric d) := by
  unfold harvestWindow
  refine foldl_preserve GoodResult _ ?_ _ d hd
  intro acc i hacc
  by_cases h1 : r + i < s.nrows
  · by_cases h2 : skipLabel (pyStrip (s.cell (r + i) c))
    · simp [h1, h2, hacc]
    · simp only [h1, if_true, h2, Bool.false_eq_true, if_false]
      exact goodResult_store _ _ _ _ hacc (by simpa using h2)
  · simp [h1, hacc]

theorem goodResult_scanCell (s : Sheet) (r c : Nat) (d : ExtractionResult)
    (hd : GoodResult d) : GoodResult (scanCell s r c d) := by
  unfold scanCell
  refine foldl_preserve GoodResult _ ?_ _ d hd
  intro acc metric hacc
  by_cases h : fragMatch metric (pyStrip (s.cell r c))
  · simp only [h, if_true]
    exact goodResult_harvest _ _ _ _ _ (goodResult_ensure _ _ hacc)
  · simp [h, hacc]

theorem goodResult_scanSheet (s : Sheet) (d : ExtractionResult)
    (hd : GoodResult d) : GoodResult (scanSheet s d) := by
  unfold scanSheet
  refine foldl_preserve GoodResult _ ?_ _ d hd
  intro acc r hacc
  refine foldl_preserve GoodResult _ ?_ _ acc hacc
  intro acc2 c hacc2
  exact goodResult_scanCell s r c acc2 hacc2

theorem goodResult_scanSheets : ∀ (reads : List (Except String Sheet))
    (d : ExtractionResult), GoodResult d → GoodResult (scanSheets reads d).1 := by
  intro reads
  induction reads with
  | nil => intro d hd; exact hd
  | cons x rest ih =>
    intro d hd
    cases x with
    | ok s => exact ih (scanSheet s d) (goodResult_scanSheet s d hd)
    | error e => exact hd

theorem extract_goodResult (wb : Workbook) :
    GoodResult (extract_all_data wb).1 := by
  cases wb with
  | corrupt msg => intro p hp; simp [extract_all_data] at hp
  | sheets reads =>
    exact goodResult_scanSheets reads [] (by intro p hp; simp at hp)

/-- C2 amended: the inner keys of the ExtractionResult are not drawn from
a fixed closed set of four category tokens — they are arbitrary label
texts; the only guarantee is the source's skip filter: every inner key is
non-blank, is not the "nan" sentinel (case-insensitively), and is not one
of the column headers "M/S", "MH", "SUD".  Rows failing that filter
contribute no entry. -/
theorem c2_amended (wb : Workbook) (m : String) (labels : LabelMap)
    (l : String) (v : ValueTuple)
    (hm : alookup (extract_all_data wb).1 m = some labels)
    (hl : (l, v) ∈ labels) : skipLabel l = false :=
  extract_goodResult wb (m, labels)
    (alookup_mem (extract_all_data wb).1 m labels hm) (l, v) hl

/-- C2 amended witness: the label "A" extracted from a concrete workbook
indeed passes the skip filter. -/
theorem c2_amended_witness :
    skipLabel "A" = false :=
  c2_amended (Workbook.sheets [Except.ok
      ⟨[["Number (#) of Total Claims Incurred During the Plan Year", "nan"],
        ["A", "1"]], 2⟩])
    "Number (#) of Total Claims Incurred During the Plan Year"
    [("A", ["1", "", "", ""])] "A" ["1", "", "", ""]
    (by decide) (by decide)

/-- C3 counterexample: on a corrupt workbook the extraction result is
empty and the run does NOT continue to the injection stage — no injection
is performed, no output document is produced, and a warning is shown —
whereas the claim states the run continues to injection with nothing to
inject. -/
theorem c3_counterexample :
    runFlow (Workbook.corrupt "bad") [[["x"]]] =
      ⟨false, 0, true, some "bad", none⟩ := by decide

theorem scanSheets_partial : ∀ (pre : List Sheet) (acc : ExtractionResult)
    (e : String) (rest : List (Except String Sheet)),
    scanSheets (pre.map Except.ok ++ Except.error e :: rest) acc =
      (pre.foldl (fun a s => scanSheet s a) acc, some e) := by
  intro pre
  induction pre with
  | nil => intros; rfl
  | cons s t ih =>
    intro acc e rest
    simpa [scanSheets] using ih (scanSheet s acc) e rest

/-- C3 amended: a reader failure is caught — extraction returns everything
gathered from the sheets before the failure together with the surfaced
error message (empty mapping when nothing was parsed) — but the run then
continues to the injection stage only when that partial result is
non-empty; when it is empty, injection is skipped entirely (no output
document) and a warning is shown instead.  Either way there is no hard
abort. -/
theorem c3_amended :
    (∀ (pre : List Sheet) (e : String) (rest : List (Except String Sheet)),
      extract_all_data (Workbook.sheets (pre.map Except.ok ++ Except.error e :: rest)) =
        (pre.foldl (fun a s => scanSheet s a) [], some e))
    ∧ (∀ (wb : Workbook) (doc : List Table),
        ((extract_all_data wb).1 = [] →
          runFlow wb doc = ⟨false, 0, true, (extract_all_data wb).2, none⟩)
        ∧ ((extract_all_data wb).1 ≠ [] →
          runFlow wb doc =
            ⟨true, (inject_data_into_word doc (extract_all_data wb).1).2, false,
             (extract_all_data wb).2,
             some (inject_data_into_word doc (extract_all_data wb).1).1⟩)) := by
  constructor
  · intro pre e rest
    exact scanSheets_partial pre [] e rest
  · intro wb doc
    constructor
    · intro h
      simp [runFlow, h]
    · intro h
      have hne : (extract_all_data wb).1.isEmpty = false := by
        cases hx : (extract_all_data wb).1 with
        | nil => exact absurd hx h
        | cons a t => rfl
      simp [runFlow, hne]

/-- C3 amended witness: a corrupt workbook takes the warning branch
(injection skipped), and a workbook with one extractable metric takes the
injection branch. -/
theorem c3_amended_witness :
    runFlow (Workbook.corrupt "x") [] =
      ⟨false, 0, true, (extract_all_data (Workbook.corrupt "x")).2, none⟩
    ∧ runFlow (Workbook.sheets [Except.ok
        ⟨[["Number (#) of Total Claims Incurred During the Plan Year", "nan"],
          ["A", "1"]], 2⟩]) [] =
      ⟨true,
       (inject_data_into_word []
         (extract_all_data (Workbook.sheets [Except.ok
           ⟨[["Number (#) of Total Claims Incurred During the Plan Year", "nan"],
             ["A", "1"]], 2⟩])).1).2,
       false,
       (extract_all_data (Workbook.sheets [Except.ok
         ⟨[["Number (#) of Total Claims Incurred During the Plan Year", "nan"],
           ["A", "1"]], 2⟩])).2,
       some (inject_data_into_word []
         (extract_all_data (Workbook.sheets [Except.ok
           ⟨[["Number (#) of Total Claims Incurred During the Plan Year", "nan"],
             ["A", "1"]], 2⟩])).1).1⟩ :=
  ⟨(c3_amended.2 (Workbook.corrupt "x") []).1 rfl,
   (c3_amended.2 (Workbook.sheets [Except.ok
       ⟨[["Number (#) of Total Claims Incurred During the Plan Year", "nan"],
         ["A", "1"]], 2⟩]) []).2 (by decide)⟩

end NQTL
